import Mathlib

/-!
Shallow embedding of the stock-bot dashboard (docs/script.js and docs/app.js).

Modelling conventions:
* JavaScript numbers are modelled as exact rationals (ℚ). Claims that
  assert which expression or branch the code computes are insensitive to
  this idealization. The one claim that depends on rounding behavior
  (order-independence of the KPI sum) is settled against a value-level
  model of IEEE-754 binary64 addition (`Dyadic`, `fpAdd` below), under
  which JS `+` is not associative.
* A position field that may be `undefined`/`null` in JSON is an `Option ℚ`;
  the JS coercion `Number(x || 0)` becomes `Option.getD _ 0`.
* A network fetch outcome is an oracle `String → Except String ℚ` mapping a
  ticker to either a price (fulfilled promise) or an error (rejected promise).
* The SVG chart is a `ChartState`: the list of appended child elements plus
  whether the wrapping element has `display: none`.
-/

namespace StockBot

/-- A point of the portfolio equity series (script.js): `{ date, equity }`. -/
structure EquityPoint where
  date : String
  equity : ℚ
deriving Repr, DecidableEq

/-- A point of the single-ticker price series (app.js): `{ date, close }`. -/
structure PricePoint where
  date : String
  close : ℚ
deriving Repr, DecidableEq

/-- A persisted position: `{ ticker, qty, avg_price }`.  `qty` and `avg_price`
are `Option ℚ` because the JSON field may be absent/null. -/
structure Position where
  ticker : String
  qty : Option ℚ
  avg_price : Option ℚ
deriving Repr, DecidableEq

/-- A position after enrichment: the base fields are spread unchanged
(`{...p, ...}`) and three derived numeric fields are added. -/
structure EnrichedPosition where
  ticker : String
  qty : Option ℚ
  avg_price : Option ℚ
  current_price : ℚ
  market_value : ℚ
  unrealized_pl : ℚ
deriving Repr, DecidableEq

/-- The portfolio payload of script.js after validation. -/
structure Payload where
  title : Option String
  updated_at : Option String
  invested_cost_basis : Option ℚ
  equity_series : List EquityPoint
  positions : List Position
deriving Repr, DecidableEq

/-- A decoded JSON value, for `validatePayload`, which receives arbitrary
parsed JSON. Objects are association lists of fields. -/
inductive JsonVal where
  | null
  | bool (b : Bool)
  | num (q : ℚ)
  | str (s : String)
  | arr (elems : List JsonVal)
  | obj (fields : List (String × JsonVal))

/-- script.js `validatePayload` (lines 197–203).
JS semantics mirrored: `!data || typeof data !== 'object'` rejects every
value except objects and arrays (arrays have `typeof === 'object'` and are
truthy); `'equity_series' in data` is key lookup (always absent on an
array value); on success the mutation `data.positions = []` (only when the
key is absent) is modelled by returning the object with the field added. -/
def validatePayload : JsonVal → Except String JsonVal
  | JsonVal.obj fields =>
      match fields.lookup "equity_series" with
      | none => Except.error "Missing \"equity_series\" array."
      | some (JsonVal.arr _) =>
          if (fields.lookup "positions").isSome then
            Except.ok (JsonVal.obj fields)
          else
            Except.ok (JsonVal.obj (fields ++ [("positions", JsonVal.arr [])]))
      | some _ => Except.error "\"equity_series\" must be an array."
  | JsonVal.arr _ => Except.error "Missing \"equity_series\" array."
  | JsonVal.null => Except.error "Invalid JSON payload."
  | JsonVal.bool _ => Except.error "Invalid JSON payload."
  | JsonVal.num _ => Except.error "Invalid JSON payload."
  | JsonVal.str _ => Except.error "Invalid JSON payload."

/-- The backward scan of script.js `getLivePrice` (lines 88–90):
`for (let i = closes.length - 1; i >= 0; i--) if (closes[i] != null) return closes[i]`.
Structurally: a later non-null entry wins over an earlier one. -/
def findLastClose : List (Option ℚ) → Option ℚ
  | [] => none
  | c :: rest =>
      match findLastClose rest with
      | some v => some v
      | none => c

/-- script.js `getLivePrice` (lines 82–92), after a successful fetch.
The parameter `closesField` stands for the extracted
`data?.chart?.result?.[0]?.indicators?.quote?.[0]?.close`: `none` when the
optional chain is absent (then `|| []` supplies the empty array). -/
def getLivePrice (ticker : String) (closesField : Option (List (Option ℚ))) :
    Except String ℚ :=
  let closes := closesField.getD []
  match findLastClose closes with
  | some v => Except.ok v
  | none => Except.error ("No price for " ++ ticker)

/-- Modelled from the spec (§4.2, price extraction rule): "select the last
non-null entry scanning from most recent backward". Used only to compare
`getLivePrice` against the spec's wording. -/
def lastNonNullFromMostRecent (closes : List (Option ℚ)) : Option ℚ :=
  closes.reverse.findSome? id

/-- script.js `enrichPositionsWithLivePrices` (lines 222–246).
`Promise.allSettled` on `positions.map` resolves every element
independently and preserves order, so the whole function is a `map` over
positions given the per-ticker fetch oracle. A fulfilled fetch computes the
derived fields from `Number(p.qty || 0)` and `Number(p.avg_price || 0)`;
a rejected fetch falls back to zeroed derived fields, keeping `...p`. -/
def enrichPositionsWithLivePrices (fetch : String → Except String ℚ)
    (positions : List Position) : List EnrichedPosition :=
  positions.map (fun p =>
    match fetch p.ticker with
    | Except.ok price =>
        let qty := p.qty.getD 0
        let avg := p.avg_price.getD 0
        let mv := qty * price
        let upl := (price - avg) * qty
        { ticker := p.ticker, qty := p.qty, avg_price := p.avg_price,
          current_price := price, market_value := mv, unrealized_pl := upl }
    | Except.error _ =>
        { ticker := p.ticker, qty := p.qty, avg_price := p.avg_price,
          current_price := 0, market_value := 0, unrealized_pl := 0 })

/-- The per-position P/L percentage of script.js `renderPositions` line 154:
`avg_price ? ((current_price - avg_price) / avg_price) * 100 : 0`.
An absent `avg_price` is falsy in JS, as is `0`. -/
def positionPlPct (pos : EnrichedPosition) : ℚ :=
  let a := pos.avg_price.getD 0
  if a = 0 then 0 else ((pos.current_price - a) / a) * 100

/-- One rendered row of the positions table (script.js lines 152–167). -/
structure PositionRow where
  ticker : String
  qty : Option ℚ
  avg_price : Option ℚ
  current_price : ℚ
  market_value : ℚ
  unrealized_pl : ℚ
  plPct : ℚ
  up : Bool
deriving Repr, DecidableEq

/-- script.js `renderPositions` (lines 147–168), the data of the rows it
appends (formatting to locale strings is presentation only). -/
def renderPositions (positions : List EnrichedPosition) : List PositionRow :=
  positions.map (fun pos =>
    let plPct := positionPlPct pos
    { ticker := pos.ticker, qty := pos.qty, avg_price := pos.avg_price,
      current_price := pos.current_price, market_value := pos.market_value,
      unrealized_pl := pos.unrealized_pl, plPct := plPct,
      up := decide (0 ≤ plPct) })

/-- The single-ticker summary panel state of `renderKpis`. -/
structure OneTickerView where
  sym : String
  price : ℚ
  plPct : ℚ
deriving Repr, DecidableEq

/-- The outputs of script.js `renderKpis` (lines 171–194).
`cost` is `Number(payload.invested_cost_basis || 0)`; the total is
`reduce((s, p) => s + Number(p.market_value || 0), 0)` (the `|| 0` guard is
the identity here because `market_value` is always a number after
enrichment); the percent is `cost ? ((value - cost) / cost) * 100 : 0`;
the one-ticker panel is shown exactly when there is a single position. -/
structure KpiView where
  portfolioValue : ℚ
  vsBasisPct : ℚ
  oneTicker : Option OneTickerView
deriving Repr, DecidableEq

def renderKpis (payload : Payload) (enrichedPositions : List EnrichedPosition) :
    KpiView :=
  let cost := payload.invested_cost_basis.getD 0
  let portfolioValue :=
    enrichedPositions.foldl (fun s p => s + p.market_value) 0
  let vsBasisPct := if cost = 0 then 0 else ((portfolioValue - cost) / cost) * 100
  let oneTicker :=
    match enrichedPositions with
    | [p] =>
        let a := p.avg_price.getD 0
        let plPct := if a = 0 then 0 else ((p.current_price - a) / a) * 100
        some { sym := p.ticker, price := p.current_price, plPct := plPct }
    | _ => none
  { portfolioValue := portfolioValue, vsBasisPct := vsBasisPct,
    oneTicker := oneTicker }

/-- An SVG child element as created by `drawChart`. Presentation-only
attributes (colors, stroke width, dash pattern, font size) are omitted;
`text` stores the numeric value the label formats and the computed
`text-anchor` choice (`anchorStart = (x < W / 2)`). -/
inductive SvgElem where
  | line (x1 x2 y1 y2 : ℚ)
  | path (d : List (ℚ × ℚ))
  | circle (cx cy r : ℚ)
  | text (x y value : ℚ) (anchorStart : Bool)
deriving Repr, DecidableEq

/-- The mutable chart DOM state: the `svg` element's children and whether
`chartWrap` is hidden (`style.display = 'none'`). -/
structure ChartState where
  children : List SvgElem
  displayNone : Bool
deriving Repr, DecidableEq

/-- The argument of `drawChart`: either not an array at all (failing
`Array.isArray`) or an array of points. -/
inductive SeriesInput (α : Type) where
  | notArray
  | arr (points : List α)

/-- First matching `path` element's vertex list among the children. -/
def ChartState.pathD (s : ChartState) : Option (List (ℚ × ℚ)) :=
  s.children.findSome? (fun e =>
    match e with
    | SvgElem.path d => some d
    | _ => none)

/-- First matching `circle` element's center among the children. -/
def ChartState.dotCenter (s : ChartState) : Option (ℚ × ℚ) :=
  s.children.findSome? (fun e =>
    match e with
    | SvgElem.circle cx cy _ => some (cx, cy)
    | _ => none)

namespace Script

/-- script.js `drawChart` (lines 95–132). The initial
`while (svg.firstChild) svg.removeChild(...)` makes the resulting children
independent of the previous state, so each branch rebuilds `children` from
scratch. In this ℚ model `Number(p.equity)` is never `NaN`, so the
`.filter(v => !Number.isNaN(v))` on `ys` is the identity and is omitted.
`(xMax || 1)` and `((yMax - yMin) || 1)` are JS falsy checks on `0`.
`Math.min(...ys)` / `Math.max(...ys)` are `min?`/`max?` (with an arbitrary
default for the unreachable empty case, as `ys.length = series.length ≥ 2`
in the drawing branch). -/
def drawChart (svg : ChartState) : SeriesInput EquityPoint → ChartState
  | SeriesInput.notArray => { svg with children := [], displayNone := true }
  | SeriesInput.arr pts =>
    if pts.length < 2 then { svg with children := [], displayNone := true }
    else
      let W : ℚ := 800
      let H : ℚ := 220
      let PAD : ℚ := 18
      let ys : List ℚ := pts.map (fun p => p.equity)
      let xMax : ℚ := (pts.length : ℚ) - 1
      let yMin : ℚ := (ys.min?).getD 0
      let yMax : ℚ := (ys.max?).getD 0
      let xScale : ℚ → ℚ := fun i =>
        PAD + i * (W - 2 * PAD) / (if xMax = 0 then 1 else xMax)
      let yScale : ℚ → ℚ := fun v =>
        H - PAD - (v - yMin) * (H - 2 * PAD) /
          (if yMax - yMin = 0 then 1 else yMax - yMin)
      let last : ℚ := ys.getLastD 0
      let grid : SvgElem := SvgElem.line PAD (W - PAD) (yScale last) (yScale last)
      let d : List (ℚ × ℚ) :=
        pts.enum.map (fun ip => (xScale (ip.1 : ℚ), yScale ip.2.equity))
      let dot : SvgElem := SvgElem.circle (xScale xMax) (yScale last) (4.5 : ℚ)
      let lblMin : SvgElem := SvgElem.text PAD (H - 4) yMin (decide (PAD < W / 2))
      let lblMax : SvgElem :=
        SvgElem.text (W - PAD) (H - 4) yMax (decide (W - PAD < W / 2))
      { svg with
        children := [grid, SvgElem.path d, dot, lblMin, lblMax],
        displayNone := false }

end Script

namespace App

/-- app.js `drawChart` (lines 47–82): identical to the script.js routine
except the plotted value is `p.close`. Same modelling notes apply. -/
def drawChart (svg : ChartState) : SeriesInput PricePoint → ChartState
  | SeriesInput.notArray => { svg with children := [], displayNone := true }
  | SeriesInput.arr pts =>
    if pts.length < 2 then { svg with children := [], displayNone := true }
    else
      let W : ℚ := 800
      let H : ℚ := 220
      let PAD : ℚ := 18
      let ys : List ℚ := pts.map (fun p => p.close)
      let xMax : ℚ := (pts.length : ℚ) - 1
      let yMin : ℚ := (ys.min?).getD 0
      let yMax : ℚ := (ys.max?).getD 0
      let xScale : ℚ → ℚ := fun i =>
        PAD + i * (W - 2 * PAD) / (if xMax = 0 then 1 else xMax)
      let yScale : ℚ → ℚ := fun v =>
        H - PAD - (v - yMin) * (H - 2 * PAD) /
          (if yMax - yMin = 0 then 1 else yMax - yMin)
      let last : ℚ := ys.getLastD 0
      let grid : SvgElem := SvgElem.line PAD (W - PAD) (yScale last) (yScale last)
      let d : List (ℚ × ℚ) :=
        pts.enum.map (fun ip => (xScale (ip.1 : ℚ), yScale ip.2.close))
      let dot : SvgElem := SvgElem.circle (xScale xMax) (yScale last) (4.5 : ℚ)
      let lblMin : SvgElem := SvgElem.text PAD (H - 4) yMin (decide (PAD < W / 2))
      let lblMax : SvgElem :=
        SvgElem.text (W - PAD) (H - 4) yMax (decide (W - PAD < W / 2))
      { svg with
        children := [grid, SvgElem.path d, dot, lblMin, lblMax],
        displayNone := false }

end App

/-!
### IEEE-754 binary64 value model

JS `+` on numbers is, per ECMA-262, IEEE-754 binary64 addition with
rounding to nearest, ties to even.  The model below represents a finite
double by its exact value `m * 2 ^ e` (`m e : ℤ`) and implements
addition as: align the summands to a common exponent, form the exact
integer sum, and round the mantissa to 53 bits (nearest, ties to even).
This is the standard softfloat algorithm at the value level.
Exponent-range overflow/underflow to subnormals is not modelled; the
magnitudes in every statement below are far inside the normal range.
Representations are not canonicalized (`⟨2 ^ 52, 1⟩` and `⟨2 ^ 53, 0⟩`
denote the same double), so statements compare `Dyadic.value`.
-/

/-- A finite binary64 value `m * 2 ^ e`.  A canonical double has
`|m| < 2 ^ 53`; `fpNorm` (re)establishes this bound. -/
structure Dyadic where
  m : ℤ
  e : ℤ
deriving Repr, DecidableEq

/-- The exact rational value of a `Dyadic`. -/
def Dyadic.value (d : Dyadic) : ℚ := (d.m : ℚ) * (2 : ℚ) ^ d.e

/-- Least `k` with `A / 2 ^ k < 2 ^ 53`, by repeated halving.  The fuel
bounds the recursion structurally; 2200 exceeds the bit length of any
aligned sum of two finite doubles (≤ 53 + 971 + 1074 + 1 bits). -/
def excessBitsGo : ℕ → ℕ → ℕ
  | 0, _ => 0
  | fuel + 1, A => if A < 2 ^ 53 then 0 else excessBitsGo fuel (A / 2) + 1

def excessBits (A : ℕ) : ℕ := excessBitsGo 2200 A

/-- Round the exact value `M * 2 ^ e` to a 53-bit mantissa: drop `k`
low bits, rounding to nearest and to the even mantissa on a tie
(applied to the magnitude; IEEE rounding is sign-symmetric). -/
def fpNorm (M : ℤ) (e : ℤ) : Dyadic :=
  let A := M.natAbs
  let k := excessBits A
  if k = 0 then ⟨M, e⟩
  else
    let high := A / 2 ^ k
    let low := A % 2 ^ k
    let half := 2 ^ (k - 1)
    let r : ℕ :=
      if low < half then high
      else if half < low then high + 1
      else if high % 2 = 0 then high else high + 1
    ⟨if M < 0 then -(r : ℤ) else (r : ℤ), e + k⟩

/-- IEEE-754 binary64 addition at the value level: round the exact sum
of the two doubles.  This is JS `+` for finite normal-range numbers. -/
def fpAdd (a b : Dyadic) : Dyadic :=
  let e := min a.e b.e
  let M := a.m * 2 ^ (a.e - e).toNat + b.m * 2 ^ (b.e - e).toNat
  fpNorm M e

/-- The `renderKpis` portfolio total of script.js line 173,
`reduce((s, p) => s + Number(p.market_value || 0), 0)`, under binary64
semantics: the market values are given as doubles and accumulated
left-to-right with `fpAdd` from 0. -/
def portfolioValueFP (mvs : List Dyadic) : Dyadic :=
  mvs.foldl (fun s p => fpAdd s p) ⟨0, 0⟩

/-! ### Helper lemmas -/

theorem foldl_add_rat (l : List ℚ) (a : ℚ) :
    l.foldl (fun s v => s + v) a = a + l.sum := by
  induction l generalizing a with
  | nil => simp
  | cons x xs ih =>
      simp only [List.foldl_cons, List.sum_cons]
      rw [ih]
      ring

theorem foldl_add_market_value (l : List EnrichedPosition) (a : ℚ) :
    l.foldl (fun s p => s + p.market_value) a
      = a + (l.map (fun p => p.market_value)).sum := by
  induction l generalizing a with
  | nil => simp
  | cons x xs ih =>
      simp only [List.foldl_cons, List.map_cons, List.sum_cons]
      rw [ih]
      ring

theorem findLastClose_eq_rev (l : List (Option ℚ)) :
    findLastClose l = l.reverse.findSome? id := by
  induction l with
  | nil => rfl
  | cons c rest ih =>
      simp only [findLastClose, List.reverse_cons, List.findSome?_append, ih]
      cases rest.reverse.findSome? id with
      | none =>
          cases c with
          | none => rfl
          | some v => rfl
      | some v => rfl

theorem findLastClose_all_none (l : List (Option ℚ)) (h : ∀ o ∈ l, o = none) :
    findLastClose l = none := by
  induction l with
  | nil => rfl
  | cons c rest ih =>
      have hc : c = none := h c (List.mem_cons_self c rest)
      have hrest : findLastClose rest = none :=
        ih (fun o ho => h o (List.mem_cons_of_mem c ho))
      simp [findLastClose, hrest, hc]

theorem enumFrom_getElem? {α : Type} (n i : ℕ) (l : List α) :
    (List.enumFrom n l)[i]? = l[i]?.map (fun a => (n + i, a)) := by
  induction l generalizing n i with
  | nil => simp
  | cons x xs ih =>
      cases i with
      | zero => simp
      | succ j =>
          simp only [List.enumFrom, List.getElem?_cons_succ, ih (n + 1) j]
          cases xs[j]? with
          | none => rfl
          | some a =>
              simp only [Option.map_some']
              have : n + 1 + j = n + (j + 1) := by omega
              rw [this]

theorem enumFrom_getLast? {α : Type} (n : ℕ) (l : List α) :
    (List.enumFrom n l).getLast? = l.getLast?.map (fun a => (n + l.length - 1, a)) := by
  induction l generalizing n with
  | nil => rfl
  | cons x xs ih =>
      cases xs with
      | nil => rfl
      | cons y ys =>
          have h1 : (List.enumFrom n (x :: y :: ys)).getLast?
              = (List.enumFrom (n + 1) (y :: ys)).getLast? := by
            have hx : List.enumFrom n (x :: y :: ys)
                = (n, x) :: (n + 1, y) :: List.enumFrom (n + 2) ys := rfl
            rw [hx, List.getLast?_cons_cons]
            rfl
          rw [h1, ih (n + 1), List.getLast?_cons_cons]
          cases (y :: ys).getLast? with
          | none => rfl
          | some a =>
              simp only [Option.map_some']
              have h3 : n + 1 + (y :: ys).length - 1 = n + (x :: y :: ys).length - 1 := by
                simp only [List.length_cons]
                omega
              rw [h3]

/-! ### Claims -/

/-- C3: `validatePayload` rejects `{}` (missing `equity_series`); accepts
`{equity_series: []}`, defaulting `positions` to `[]`; and fails whenever
the input is not an object or `equity_series` is present but not an
array. -/
theorem claim_C3_validatePayload :
    validatePayload (JsonVal.obj []) = Except.error "Missing \"equity_series\" array."
    ∧ validatePayload (JsonVal.obj [("equity_series", JsonVal.arr [])])
        = Except.ok (JsonVal.obj
            [("equity_series", JsonVal.arr []), ("positions", JsonVal.arr [])])
    ∧ (∀ d : JsonVal, (∀ fields, d ≠ JsonVal.obj fields) →
        ∃ e, validatePayload d = Except.error e)
    ∧ (∀ fields v, fields.lookup "equity_series" = some v →
        (∀ xs, v ≠ JsonVal.arr xs) →
        ∃ e, validatePayload (JsonVal.obj fields) = Except.error e) := by
  refine ⟨rfl, rfl, ?_, ?_⟩
  · intro d h
    cases d with
    | obj fields => exact absurd rfl (h fields)
    | arr l => exact ⟨_, rfl⟩
    | null => exact ⟨_, rfl⟩
    | bool b => exact ⟨_, rfl⟩
    | num q => exact ⟨_, rfl⟩
    | str s => exact ⟨_, rfl⟩
  · intro fields v hv hnarr
    refine ⟨"\"equity_series\" must be an array.", ?_⟩
    simp only [validatePayload]
    rw [hv]
    cases v with
    | arr xs => exact absurd rfl (hnarr xs)
    | null => rfl
    | bool b => rfl
    | num q => rfl
    | str s => rfl
    | obj g => rfl

/-- Witness for C3 at concrete non-object and non-array-field inputs. -/
theorem claim_C3_validatePayload_witness :
    (∃ e, validatePayload JsonVal.null = Except.error e)
    ∧ (∃ e, validatePayload (JsonVal.obj [("equity_series", JsonVal.num 3)])
        = Except.error e) :=
  ⟨claim_C3_validatePayload.2.2.1 JsonVal.null (fun _ h => JsonVal.noConfusion h),
   claim_C3_validatePayload.2.2.2 [("equity_series", JsonVal.num 3)] (JsonVal.num 3)
     rfl (fun _ h => JsonVal.noConfusion h)⟩

/-- C8: `getLivePrice` returns the last non-null close scanning from the
most recent entry backward, and fails when every entry is null or the
array is empty or absent. -/
theorem claim_C8_getLivePrice :
    ∀ (ticker : String) (closes : List (Option ℚ)),
      (∀ v, getLivePrice ticker (some closes) = Except.ok v ↔
          lastNonNullFromMostRecent closes = some v)
      ∧ ((∀ o ∈ closes, o = none) →
          getLivePrice ticker (some closes)
            = Except.error ("No price for " ++ ticker))
      ∧ getLivePrice ticker (some [])
          = Except.error ("No price for " ++ ticker)
      ∧ getLivePrice ticker none
          = Except.error ("No price for " ++ ticker) := by
  intro ticker closes
  have hrev : findLastClose closes = lastNonNullFromMostRecent closes :=
    findLastClose_eq_rev closes
  refine ⟨?_, ?_, rfl, rfl⟩
  · intro v
    unfold getLivePrice
    rw [← hrev]
    cases h : findLastClose closes with
    | none =>
        simp only [Option.getD, h]
        exact ⟨fun hc => Except.noConfusion hc, fun hc => Option.noConfusion hc⟩
    | some w =>
        simp only [Option.getD, h]
        constructor
        · intro hc
          cases hc
          rfl
        · intro hc
          cases hc
          rfl
  · intro hall
    unfold getLivePrice
    simp only [Option.getD, findLastClose_all_none closes hall]

/-- Witness for C8 at a concrete closes array with an all-null case. -/
theorem claim_C8_getLivePrice_witness :
    getLivePrice "AAPL" (some [none, none]) = Except.error ("No price for " ++ "AAPL")
    ∧ getLivePrice "MSFT" (some [some 1, none, some 7, none]) = Except.ok 7 :=
  ⟨(claim_C8_getLivePrice "AAPL" [none, none]).2.1 (by decide),
   ((claim_C8_getLivePrice "MSFT" [some 1, none, some 7, none]).1 7).mpr (by decide)⟩

/-- C7: the relative-percent computations return exactly 0 on a zero
denominator: the per-position P/L percent is `(current - avg) / avg * 100`
for non-zero `avg_price` and 0 otherwise, and the portfolio percent vs.
cost basis is `(value - cost) / cost * 100` for non-zero `cost_basis` and
0 otherwise. -/
theorem claim_C7_zero_denominator :
    (∀ pos : EnrichedPosition,
      (pos.avg_price.getD 0 = 0 → positionPlPct pos = 0)
      ∧ ∀ a, pos.avg_price = some a → a ≠ 0 →
          positionPlPct pos = ((pos.current_price - a) / a) * 100)
    ∧ ∀ (payload : Payload) (eps : List EnrichedPosition),
      (payload.invested_cost_basis.getD 0 = 0 → (renderKpis payload eps).vsBasisPct = 0)
      ∧ ∀ c, payload.invested_cost_basis = some c → c ≠ 0 →
          (renderKpis payload eps).vsBasisPct
            = (((renderKpis payload eps).portfolioValue - c) / c) * 100 := by
  constructor
  · intro pos
    constructor
    · intro h
      simp [positionPlPct, h]
    · intro a ha hane
      simp [positionPlPct, ha, hane]
  · intro payload eps
    constructor
    · intro h
      simp [renderKpis, h]
    · intro c hc hcne
      simp [renderKpis, hc, hcne]

/-- Witness for C7 at concrete positions and payloads. -/
theorem claim_C7_zero_denominator_witness :
    positionPlPct
      { ticker := "A", qty := some 1, avg_price := some 0,
        current_price := 5, market_value := 5, unrealized_pl := 5 } = 0
    ∧ positionPlPct
      { ticker := "B", qty := some 1, avg_price := some 2,
        current_price := 5, market_value := 5, unrealized_pl := 3 }
      = ((5 - 2) / 2) * 100
    ∧ (renderKpis
      { title := none, updated_at := none, invested_cost_basis := none,
        equity_series := [], positions := [] } []).vsBasisPct = 0 :=
  ⟨(claim_C7_zero_denominator.1 _).1 (by decide),
   by
    have h := (claim_C7_zero_denominator.1
      { ticker := "B", qty := some 1, avg_price := some 2,
        current_price := 5, market_value := 5, unrealized_pl := 3 }).2 2 rfl (by decide)
    simpa using h,
   (claim_C7_zero_denominator.2 _ _).1 (by decide)⟩

/-- C2 (amended): the `renderKpis` portfolio total is the sum of the
positions' `market_value` fields taken left-to-right in input order (the
reduce starting at 0); in the exact-arithmetic model this equals the list
sum.  The original claim's order-independence over the program's IEEE-754
doubles is refuted by `claim_C2_renderKpis_total_counterexample`. -/
theorem claim_C2_renderKpis_total_ordered :
    ∀ (payload : Payload) (eps : List EnrichedPosition),
      (renderKpis payload eps).portfolioValue
          = (eps.map (fun p => p.market_value)).foldl (fun s v => s + v) 0
      ∧ (renderKpis payload eps).portfolioValue
          = (eps.map (fun p => p.market_value)).sum := by
  intro payload eps
  have hval : (renderKpis payload eps).portfolioValue
      = (eps.map (fun p => p.market_value)).sum := by
    simp [renderKpis, foldl_add_market_value]
  refine ⟨?_, hval⟩
  rw [hval, foldl_add_rat]
  ring

/-- Counterexample to C2's order-independence: under binary64 addition
(the program's JS `+`), the `renderKpis` reduce over the market values
`[1e16, 1, -1e16]` yields `0` (the `+ 1` is absorbed: `1e16 + 1` rounds
back to `1e16`), while the permutation `[1e16, -1e16, 1]` yields `1`.
The two market-value sequences are those of explicit enriched positions.
`1e16 = 5000000000000000 * 2 ^ 1`. -/
theorem claim_C2_renderKpis_total_counterexample :
    ([⟨5000000000000000, 1⟩, ⟨1, 0⟩, ⟨-5000000000000000, 1⟩] : List Dyadic).Perm
        [⟨5000000000000000, 1⟩, ⟨-5000000000000000, 1⟩, ⟨1, 0⟩]
    ∧ ([⟨5000000000000000, 1⟩, ⟨1, 0⟩, ⟨-5000000000000000, 1⟩] :
          List Dyadic).map Dyadic.value
        = ([{ ticker := "A", qty := some 1, avg_price := some 0,
              current_price := 10000000000000000,
              market_value := 10000000000000000, unrealized_pl := 0 },
            { ticker := "B", qty := some 1, avg_price := some 0,
              current_price := 1, market_value := 1, unrealized_pl := 0 },
            { ticker := "C", qty := some 1, avg_price := some 0,
              current_price := -10000000000000000,
              market_value := -10000000000000000, unrealized_pl := 0 }] :
            List EnrichedPosition).map (fun p => p.market_value)
    ∧ (portfolioValueFP
        [⟨5000000000000000, 1⟩, ⟨1, 0⟩, ⟨-5000000000000000, 1⟩]).value = 0
    ∧ (portfolioValueFP
        [⟨5000000000000000, 1⟩, ⟨-5000000000000000, 1⟩, ⟨1, 0⟩]).value = 1
    ∧ (portfolioValueFP
        [⟨5000000000000000, 1⟩, ⟨1, 0⟩, ⟨-5000000000000000, 1⟩]).value
      ≠ (portfolioValueFP
        [⟨5000000000000000, 1⟩, ⟨-5000000000000000, 1⟩, ⟨1, 0⟩]).value := by
  have h1 : portfolioValueFP
      [⟨5000000000000000, 1⟩, ⟨1, 0⟩, ⟨-5000000000000000, 1⟩] = ⟨0, 1⟩ := by
    decide
  have h2 : portfolioValueFP
      [⟨5000000000000000, 1⟩, ⟨-5000000000000000, 1⟩, ⟨1, 0⟩] = ⟨1, 0⟩ := by
    decide
  refine ⟨by decide, ?_, ?_, ?_, ?_⟩
  · norm_num [Dyadic.value]
  · rw [h1]
    norm_num [Dyadic.value]
  · rw [h2]
    norm_num [Dyadic.value]
  · rw [h1, h2]
    norm_num [Dyadic.value]

/-- C1: enrichment preserves length and order; a position whose fetch
succeeds with price `P` keeps its base fields and gets
`current_price = P`, `market_value = qty * P`,
`unrealized_pl = (P - avg_price) * qty`; a position whose fetch fails
keeps its base fields and gets the three derived fields zeroed; every
position is resolved independently (the function is total for any mix of
per-position outcomes). -/
theorem claim_C1_enrichPositions :
    ∀ (fetch : String → Except String ℚ) (positions : List Position),
      (enrichPositionsWithLivePrices fetch positions).length = positions.length
      ∧ ∀ (i : ℕ) (hi : i < positions.length)
          (hi2 : i < (enrichPositionsWithLivePrices fetch positions).length),
          (∀ P, fetch (positions.get ⟨i, hi⟩).ticker = Except.ok P →
            (enrichPositionsWithLivePrices fetch positions).get ⟨i, hi2⟩ =
              { ticker := (positions.get ⟨i, hi⟩).ticker,
                qty := (positions.get ⟨i, hi⟩).qty,
                avg_price := (positions.get ⟨i, hi⟩).avg_price,
                current_price := P,
                market_value := (positions.get ⟨i, hi⟩).qty.getD 0 * P,
                unrealized_pl :=
                  (P - (positions.get ⟨i, hi⟩).avg_price.getD 0)
                    * (positions.get ⟨i, hi⟩).qty.getD 0 })
          ∧ ∀ e, fetch (positions.get ⟨i, hi⟩).ticker = Except.error e →
            (enrichPositionsWithLivePrices fetch positions).get ⟨i, hi2⟩ =
              { ticker := (positions.get ⟨i, hi⟩).ticker,
                qty := (positions.get ⟨i, hi⟩).qty,
                avg_price := (positions.get ⟨i, hi⟩).avg_price,
                current_price := 0, market_value := 0, unrealized_pl := 0 } := by
  intro fetch positions
  refine ⟨by simp [enrichPositionsWithLivePrices], ?_⟩
  intro i hi hi2
  constructor
  · intro P hP
    simp only [List.get_eq_getElem] at hP ⊢
    simp only [enrichPositionsWithLivePrices, List.getElem_map]
    rw [hP]
  · intro e hE
    simp only [List.get_eq_getElem] at hE ⊢
    simp only [enrichPositionsWithLivePrices, List.getElem_map]
    rw [hE]

/-- Witness for C1: ticker A succeeds with price 150, ticker B fails. -/
theorem claim_C1_enrichPositions_witness :
    (enrichPositionsWithLivePrices
        (fun t => if t = "A" then Except.ok (150 : ℚ) else Except.error "boom")
        [{ ticker := "A", qty := some 2, avg_price := some 100 },
         { ticker := "B", qty := some 1, avg_price := some 10 }]).length
      = ([{ ticker := "A", qty := some 2, avg_price := some 100 },
          { ticker := "B", qty := some 1, avg_price := some 10 }] : List Position).length
    ∧ (enrichPositionsWithLivePrices
        (fun t => if t = "A" then Except.ok (150 : ℚ) else Except.error "boom")
        [{ ticker := "A", qty := some 2, avg_price := some 100 },
         { ticker := "B", qty := some 1, avg_price := some 10 }]).get ⟨0, by decide⟩
      = { ticker := "A", qty := some 2, avg_price := some 100,
          current_price := 150, market_value := 300, unrealized_pl := 100 }
    ∧ (enrichPositionsWithLivePrices
        (fun t => if t = "A" then Except.ok (150 : ℚ) else Except.error "boom")
        [{ ticker := "A", qty := some 2, avg_price := some 100 },
         { ticker := "B", qty := some 1, avg_price := some 10 }]).get ⟨1, by decide⟩
      = { ticker := "B", qty := some 1, avg_price := some 10,
          current_price := 0, market_value := 0, unrealized_pl := 0 } := by
  refine ⟨(claim_C1_enrichPositions _ _).1, ?_, ?_⟩
  · have h := ((claim_C1_enrichPositions
      (fun t => if t = "A" then Except.ok (150 : ℚ) else Except.error "boom")
      [{ ticker := "A", qty := some 2, avg_price := some 100 },
       { ticker := "B", qty := some 1, avg_price := some 10 }]).2 0
      (by decide) (by decide)).1 150 rfl
    exact h.trans (by norm_num)
  · have h := ((claim_C1_enrichPositions
      (fun t => if t = "A" then Except.ok (150 : ℚ) else Except.error "boom")
      [{ ticker := "A", qty := some 2, avg_price := some 100 },
       { ticker := "B", qty := some 1, avg_price := some 10 }]).2 1
      (by decide) (by decide)).2 "boom" rfl
    exact h.trans (by norm_num)

/-- C10: under a successful fetch with price `P`, a missing `qty` is
coerced to 0 (so `market_value = 0` and `unrealized_pl = 0` even though
`current_price = P`), and a missing `avg_price` is coerced to 0 (so
`unrealized_pl = P * qty`). -/
theorem claim_C10_falsy_coercion :
    ∀ (fetch : String → Except String ℚ) (positions : List Position)
      (i : ℕ) (hi : i < positions.length)
      (hi2 : i < (enrichPositionsWithLivePrices fetch positions).length) (P : ℚ),
      fetch (positions.get ⟨i, hi⟩).ticker = Except.ok P →
      ((positions.get ⟨i, hi⟩).qty = none →
        ((enrichPositionsWithLivePrices fetch positions).get ⟨i, hi2⟩).current_price = P
        ∧ ((enrichPositionsWithLivePrices fetch positions).get ⟨i, hi2⟩).market_value = 0
        ∧ ((enrichPositionsWithLivePrices fetch positions).get ⟨i, hi2⟩).unrealized_pl = 0)
      ∧ ((positions.get ⟨i, hi⟩).avg_price = none →
        ((enrichPositionsWithLivePrices fetch positions).get ⟨i, hi2⟩).unrealized_pl
          = P * (positions.get ⟨i, hi⟩).qty.getD 0) := by
  intro fetch positions i hi hi2 P hP
  simp only [List.get_eq_getElem] at hP ⊢
  constructor
  · intro hqty
    simp only [enrichPositionsWithLivePrices, List.getElem_map]
    rw [hP]
    simp [hqty]
  · intro havg
    simp only [enrichPositionsWithLivePrices, List.getElem_map]
    rw [hP]
    simp [havg]

/-- Witness for C10: one position with no `qty`, one with no `avg_price`. -/
theorem claim_C10_falsy_coercion_witness :
    (((enrichPositionsWithLivePrices (fun _ => Except.ok (150 : ℚ))
        [{ ticker := "A", qty := none, avg_price := some 100 },
         { ticker := "B", qty := some 3, avg_price := none }]).get
          ⟨0, by decide⟩).current_price = 150
      ∧ ((enrichPositionsWithLivePrices (fun _ => Except.ok (150 : ℚ))
        [{ ticker := "A", qty := none, avg_price := some 100 },
         { ticker := "B", qty := some 3, avg_price := none }]).get
          ⟨0, by decide⟩).market_value = 0
      ∧ ((enrichPositionsWithLivePrices (fun _ => Except.ok (150 : ℚ))
        [{ ticker := "A", qty := none, avg_price := some 100 },
         { ticker := "B", qty := some 3, avg_price := none }]).get
          ⟨0, by decide⟩).unrealized_pl = 0)
    ∧ ((enrichPositionsWithLivePrices (fun _ => Except.ok (150 : ℚ))
        [{ ticker := "A", qty := none, avg_price := some 100 },
         { ticker := "B", qty := some 3, avg_price := none }]).get
          ⟨1, by decide⟩).unrealized_pl
      = 150 * (([{ ticker := "A", qty := none, avg_price := some 100 },
                 { ticker := "B", qty := some 3, avg_price := none }] :
            List Position).get ⟨1, by decide⟩).qty.getD 0 := by
  constructor
  · exact ((claim_C10_falsy_coercion (fun _ => Except.ok (150 : ℚ))
      [{ ticker := "A", qty := none, avg_price := some 100 },
       { ticker := "B", qty := some 3, avg_price := none }] 0
      (by decide) (by decide) 150 rfl).1 rfl)
  · exact ((claim_C10_falsy_coercion (fun _ => Except.ok (150 : ℚ))
      [{ ticker := "A", qty := none, avg_price := some 100 },
       { ticker := "B", qty := some 3, avg_price := none }] 1
      (by decide) (by decide) 150 rfl).2 rfl)

/-- C9: redrawing is idempotent: `drawChart` clears all previous chart
children, so its result does not depend on the prior chart state, and
drawing twice with the same input equals drawing once. Holds for both the
script.js and the app.js variant. -/
theorem claim_C9_idempotent :
    ∀ (s t : ChartState) (input : SeriesInput EquityPoint)
      (input2 : SeriesInput PricePoint),
      Script.drawChart (Script.drawChart s input) input = Script.drawChart s input
      ∧ Script.drawChart s input = Script.drawChart t input
      ∧ App.drawChart (App.drawChart s input2) input2 = App.drawChart s input2
      ∧ App.drawChart s input2 = App.drawChart t input2 := by
  intro s t input input2
  exact ⟨rfl, rfl, rfl, rfl⟩

/-- C4: with a non-array input or fewer than 2 points, `drawChart` hides
the chart area (`display: none`) and leaves no chart element at all, in
both the script.js and the app.js variant. -/
theorem claim_C4_hide_when_small :
    ∀ (s : ChartState) (pts : List EquityPoint) (pts2 : List PricePoint),
      (Script.drawChart s SeriesInput.notArray).children = []
      ∧ (Script.drawChart s SeriesInput.notArray).displayNone = true
      ∧ (pts.length < 2 →
          (Script.drawChart s (SeriesInput.arr pts)).children = []
          ∧ (Script.drawChart s (SeriesInput.arr pts)).displayNone = true)
      ∧ (App.drawChart s SeriesInput.notArray).children = []
      ∧ (App.drawChart s SeriesInput.notArray).displayNone = true
      ∧ (pts2.length < 2 →
          (App.drawChart s (SeriesInput.arr pts2)).children = []
          ∧ (App.drawChart s (SeriesInput.arr pts2)).displayNone = true) := by
  intro s pts pts2
  refine ⟨rfl, rfl, ?_, rfl, rfl, ?_⟩
  · intro h
    simp only [Script.drawChart]
    rw [if_pos h]
    exact ⟨rfl, rfl⟩
  · intro h
    simp only [App.drawChart]
    rw [if_pos h]
    exact ⟨rfl, rfl⟩

/-- Witness for C4: a one-point series and an empty series. -/
theorem claim_C4_hide_when_small_witness :
    (Script.drawChart { children := [], displayNone := false }
        (SeriesInput.arr [{ date := "d", equity := 1 }])).children = []
    ∧ (App.drawChart { children := [SvgElem.circle 1 2 3], displayNone := false }
        (SeriesInput.arr ([] : List PricePoint))).children = [] :=
  ⟨((claim_C4_hide_when_small { children := [], displayNone := false }
      [{ date := "d", equity := 1 }] []).2.2.1 (by decide)).1,
   ((claim_C4_hide_when_small { children := [SvgElem.circle 1 2 3], displayNone := false }
      [] []).2.2.2.2.2 (by decide)).1⟩

/-- C5: for a series of length at least 2, the polyline has exactly one
vertex per point and the end-point marker's center equals the polyline's
last vertex. -/
theorem claim_C5_polyline_marker :
    ∀ (s : ChartState) (pts : List EquityPoint), 2 ≤ pts.length →
      ∃ verts p,
        (Script.drawChart s (SeriesInput.arr pts)).pathD = some verts
        ∧ verts.length = pts.length
        ∧ (Script.drawChart s (SeriesInput.arr pts)).dotCenter = some p
        ∧ verts.getLast? = some p := by
  intro s pts h2
  have hnl : ¬ pts.length < 2 := not_lt.mpr h2
  have hne : pts ≠ [] := by
    intro hnil
    rw [hnil] at h2
    exact absurd h2 (by decide)
  obtain ⟨lastPt, hlastPt⟩ :=
    Option.isSome_iff_exists.mp (List.getLast?_isSome.mpr hne)
  simp only [Script.drawChart]
  rw [if_neg hnl]
  simp only [ChartState.pathD, ChartState.dotCenter, List.findSome?]
  refine ⟨_, _, rfl, ?_, rfl, ?_⟩
  · simp [List.enum_length]
  · have henum : pts.enum.getLast? = pts.getLast?.map (fun a => (0 + pts.length - 1, a)) :=
      enumFrom_getLast? 0 pts
    rw [List.getLast?_map, henum, hlastPt]
    simp only [Option.map_some']
    have hc : ((0 + pts.length - 1 : ℕ) : ℚ) = (pts.length : ℚ) - 1 := by
      rw [zero_add, Nat.cast_sub (by omega)]
      norm_num
    have hlastd : (List.map (fun p => p.equity) pts).getLastD 0 = lastPt.equity := by
      rw [List.getLastD_eq_getLast?, List.getLast?_map, hlastPt]
      rfl
    rw [hc, hlastd]

/-- Witness for C5 on a concrete two-point series. -/
theorem claim_C5_polyline_marker_witness :
    ∃ verts p,
      (Script.drawChart { children := [], displayNone := false }
          (SeriesInput.arr [{ date := "a", equity := 1 },
                            { date := "b", equity := 3 }])).pathD = some verts
      ∧ verts.length = ([{ date := "a", equity := 1 },
                         { date := "b", equity := 3 }] : List EquityPoint).length
      ∧ (Script.drawChart { children := [], displayNone := false }
          (SeriesInput.arr [{ date := "a", equity := 1 },
                            { date := "b", equity := 3 }])).dotCenter = some p
      ∧ verts.getLast? = some p :=
  claim_C5_polyline_marker { children := [], displayNone := false }
    [{ date := "a", equity := 1 }, { date := "b", equity := 3 }] (by decide)

/-- C6: for a series of length `N ≥ 2`, vertex `i` of the polyline is
`(PAD + i * (W - 2*PAD) / max(N-1, 1),
  H - PAD - (v - yMin) * (H - 2*PAD) / (yMax - yMin))`
with `W = 800`, `H = 220`, `PAD = 18`, `yMin`/`yMax` the min/max of the
plotted values, and range divisor 1 when `yMax = yMin`; in both chart
variants. -/
theorem claim_C6_scale_formulas :
    (∀ (s : ChartState) (pts : List EquityPoint) (i : ℕ) (yMin yMax : ℚ),
        2 ≤ pts.length → ∀ (hi : i < pts.length),
        (pts.map (fun p => p.equity)).min? = some yMin →
        (pts.map (fun p => p.equity)).max? = some yMax →
        ∃ verts,
          (Script.drawChart s (SeriesInput.arr pts)).pathD = some verts
          ∧ verts[i]? = some
              (18 + (i : ℚ) * (800 - 2 * 18) / ((max (pts.length - 1) 1 : ℕ) : ℚ),
               220 - 18 - ((pts.get ⟨i, hi⟩).equity - yMin) * (220 - 2 * 18) /
                 (if yMax = yMin then 1 else yMax - yMin)))
    ∧ (∀ (s : ChartState) (pts : List PricePoint) (i : ℕ) (yMin yMax : ℚ),
        2 ≤ pts.length → ∀ (hi : i < pts.length),
        (pts.map (fun p => p.close)).min? = some yMin →
        (pts.map (fun p => p.close)).max? = some yMax →
        ∃ verts,
          (App.drawChart s (SeriesInput.arr pts)).pathD = some verts
          ∧ verts[i]? = some
              (18 + (i : ℚ) * (800 - 2 * 18) / ((max (pts.length - 1) 1 : ℕ) : ℚ),
               220 - 18 - ((pts.get ⟨i, hi⟩).close - yMin) * (220 - 2 * 18) /
                 (if yMax = yMin then 1 else yMax - yMin))) := by
  constructor
  · intro s pts i yMin yMax h2 hi hmin hmax
    have hnl : ¬ pts.length < 2 := not_lt.mpr h2
    simp only [Script.drawChart]
    rw [if_neg hnl]
    simp only [ChartState.pathD, List.findSome?]
    refine ⟨_, rfl, ?_⟩
    rw [List.getElem?_map]
    have he : pts.enum[i]? = pts[i]?.map (fun a => (0 + i, a)) :=
      enumFrom_getElem? 0 i pts
    rw [he, List.getElem?_eq_getElem hi]
    simp only [Option.map_some']
    rw [hmin, hmax]
    have hxne : (pts.length : ℚ) - 1 ≠ 0 := by
      have h1 : (pts.length : ℚ) ≠ 1 := by
        exact_mod_cast (by omega : pts.length ≠ 1)
      exact sub_ne_zero.mpr h1
    have hdiv : ((((pts.length - 1) ⊔ 1 : ℕ)) : ℚ) = (pts.length : ℚ) - 1 := by
      rw [Nat.max_eq_left (by omega : 1 ≤ pts.length - 1), Nat.cast_sub (by omega)]
      norm_num
    rw [if_neg hxne, hdiv]
    simp only [Option.getD_some, Nat.zero_add, List.get_eq_getElem, sub_eq_zero]
  · intro s pts i yMin yMax h2 hi hmin hmax
    have hnl : ¬ pts.length < 2 := not_lt.mpr h2
    simp only [App.drawChart]
    rw [if_neg hnl]
    simp only [ChartState.pathD, List.findSome?]
    refine ⟨_, rfl, ?_⟩
    rw [List.getElem?_map]
    have he : pts.enum[i]? = pts[i]?.map (fun a => (0 + i, a)) :=
      enumFrom_getElem? 0 i pts
    rw [he, List.getElem?_eq_getElem hi]
    simp only [Option.map_some']
    rw [hmin, hmax]
    have hxne : (pts.length : ℚ) - 1 ≠ 0 := by
      have h1 : (pts.length : ℚ) ≠ 1 := by
        exact_mod_cast (by omega : pts.length ≠ 1)
      exact sub_ne_zero.mpr h1
    have hdiv : ((((pts.length - 1) ⊔ 1 : ℕ)) : ℚ) = (pts.length : ℚ) - 1 := by
      rw [Nat.max_eq_left (by omega : 1 ≤ pts.length - 1), Nat.cast_sub (by omega)]
      norm_num
    rw [if_neg hxne, hdiv]
    simp only [Option.getD_some, Nat.zero_add, List.get_eq_getElem, sub_eq_zero]

/-- Witness for C6 at the second point of a concrete two-point series. -/
theorem claim_C6_scale_formulas_witness :
    ∃ verts,
      (Script.drawChart { children := [], displayNone := false }
          (SeriesInput.arr [{ date := "a", equity := 1 },
                            { date := "b", equity := 3 }])).pathD = some verts
      ∧ verts[1]? = some
          (18 + ((1 : ℕ) : ℚ) * (800 - 2 * 18)
              / ((max (([{ date := "a", equity := 1 },
                          { date := "b", equity := 3 }] : List EquityPoint).length - 1) 1 : ℕ) : ℚ),
           220 - 18 -
             ((([{ date := "a", equity := 1 },
                 { date := "b", equity := 3 }] : List EquityPoint).get
                  ⟨1, by decide⟩).equity - 1) * (220 - 2 * 18) /
               (if (3 : ℚ) = 1 then 1 else 3 - 1)) :=
  claim_C6_scale_formulas.1 { children := [], displayNone := false }
    [{ date := "a", equity := 1 }, { date := "b", equity := 3 }] 1 1 3
    (by decide) (by decide) (by decide) (by decide)

end StockBot
